import Mathlib

/-!
# SyrmaX audit/explanation layer — formal model

A shallow embedding of the trading-decision audit and risk-policy pipeline
of the SyrmaX bot (the 稽核/解釋層 described in the repository's audit README):
the event model, the risk policy engine with its five default rules, the
template-driven explanation generator, the dual-sink audit log store, and the
decision orchestrator, together with theorems settling the specification's
claims about them.

The Python modules implementing this layer (`events.py`, `risk.py`,
`explain.py`, `audit.py`, `execution.py`, `audit_integration.py`) are not
present in the available source tree — only the layer's README and the design
specification are.  Every definition below whose doc comment starts with
`Modelled from the spec:` is therefore a faithful transcription of the
specification's words for the named missing module.
-/

namespace SyrmaxAudit

/-- Modelled from the spec: severity classes of a risk verdict
(`events.py` / `risk.py`, missing from the source tree):
INFO, WARNING, BLOCK, ordered BLOCK > WARNING > INFO. -/
inductive Severity where
  | INFO
  | WARNING
  | BLOCK
deriving DecidableEq, Repr

/-- Numeric rank realizing the order BLOCK > WARNING > INFO. -/
def Severity.rank : Severity → Nat
  | .INFO => 0
  | .WARNING => 1
  | .BLOCK => 2

/-- Modelled from the spec: signal direction (BUY/SELL/HOLD). -/
inductive Direction where
  | BUY
  | SELL
  | HOLD
deriving DecidableEq, Repr

/-- Modelled from the spec: the inbound trading signal
`{symbol, strategy_name, direction, indicators}`. -/
structure TradingSignal where
  symbol : String
  strategyName : String
  direction : Direction
  indicators : List (String × ℚ)
deriving DecidableEq, Repr

/-- Modelled from the spec: the risk-state snapshot
`{leverage, distance_to_liquidation_pct, daily_loss_pct, consecutive_losses,
proposed_slippage_bps}` supplied by the position/risk-state owner. -/
structure RiskStateSnapshot where
  leverage : ℚ
  distToLiqPct : ℚ
  dailyLossPct : ℚ
  consecutiveLosses : Nat
  proposedSlippageBps : ℚ
deriving DecidableEq, Repr

/-- Modelled from the spec: `DecisionContext`, the immutable input snapshot
for one evaluation (missing `events.py`): symbol, strategy name, direction,
indicator values, risk-relevant position/account state, and a correlation
identifier unique to this decision. -/
structure DecisionContext where
  symbol : String
  strategyName : String
  direction : Direction
  indicators : List (String × ℚ)
  leverage : ℚ
  distToLiqPct : ℚ
  dailyLossPct : ℚ
  consecutiveLosses : Nat
  proposedSlippageBps : ℚ
  correlationId : Nat
deriving DecidableEq, Repr

/-- Modelled from the spec: the orchestrator constructs the DecisionContext
from the inbound signal and the current risk-state snapshot. -/
def buildContext (sig : TradingSignal) (rs : RiskStateSnapshot) (cid : Nat) :
    DecisionContext :=
  { symbol := sig.symbol
    strategyName := sig.strategyName
    direction := sig.direction
    indicators := sig.indicators
    leverage := rs.leverage
    distToLiqPct := rs.distToLiqPct
    dailyLossPct := rs.dailyLossPct
    consecutiveLosses := rs.consecutiveLosses
    proposedSlippageBps := rs.proposedSlippageBps
    correlationId := cid }

/-- Modelled from the spec: `RiskVerdict` (missing `events.py`): rule
identifier, pass/fail boolean, severity, human message, the limit value and
the observed value. -/
structure RiskVerdict where
  ruleId : String
  pass : Bool
  severity : Severity
  message : String
  limitValue : ℚ
  observedValue : ℚ
deriving DecidableEq, Repr

/-- Modelled from the spec: `RiskRule` (missing `risk.py`): identifier, human
description, an evaluate function over the context, and the severity class the
rule can produce.  A rule implementation may raise; raising is embedded as the
`Except.error` branch. -/
structure RiskRule where
  id : String
  description : String
  evaluate : DecisionContext → Except String RiskVerdict
  severityClass : Severity

/-- Modelled from the spec: a rule whose evaluate function raises is treated
as a BLOCK verdict with message "rule evaluation failure: <rule id>" —
fail-closed, never fail-open (missing `risk.py`). -/
def runRule (r : RiskRule) (ctx : DecisionContext) : RiskVerdict :=
  match r.evaluate ctx with
  | .ok v => v
  | .error _ =>
      { ruleId := r.id
        pass := false
        severity := .BLOCK
        message := "rule evaluation failure: " ++ r.id
        limitValue := 0
        observedValue := 0 }

/-- Modelled from the spec: the engine runs every registered rule against the
context, collecting one verdict per rule, in rule declaration order. -/
def evaluateRules (rules : List RiskRule) (ctx : DecisionContext) :
    List RiskVerdict :=
  rules.map (fun r => runRule r ctx)

/-- One fold step keeping the higher-severity verdict; on equal severity the
accumulator (the earlier-declared verdict) is kept. -/
def maxStep (a v : RiskVerdict) : RiskVerdict :=
  if a.severity.rank < v.severity.rank then v else a

/-- Fold selecting the first verdict of maximal severity in `a :: l`. -/
def pickMaxGo (a : RiskVerdict) (l : List RiskVerdict) : RiskVerdict :=
  l.foldl maxStep a

/-- The first verdict of maximal severity in the list, if any. -/
def pickMax : List RiskVerdict → Option RiskVerdict
  | [] => none
  | v :: l => some (pickMaxGo v l)

/-- Modelled from the spec: most-restrictive verdict = highest-severity
failing verdict (or, if all pass, the highest-severity passing verdict, for
visibility); ties between equal-severity verdicts broken by rule declaration
order (missing `risk.py`). -/
def mostRestrictive (vs : List RiskVerdict) : Option RiskVerdict :=
  match pickMax (vs.filter (fun v => !v.pass)) with
  | some m => some m
  | none => pickMax vs

/-- Modelled from the spec: `RiskChecked` event payload (missing
`events.py`): all verdicts for one context plus the single most restrictive
verdict and an overall pass/fail. -/
structure RiskChecked where
  verdicts : List RiskVerdict
  mostRestrictiveVerdict : Option RiskVerdict
  overallPass : Bool
deriving DecidableEq, Repr

/-- Modelled from the spec: verdict reduction — overall pass = AND of all
verdicts' pass; most-restrictive verdict as in `mostRestrictive`. -/
def reduceVerdicts (vs : List RiskVerdict) : RiskChecked :=
  { verdicts := vs
    mostRestrictiveVerdict := mostRestrictive vs
    overallPass := vs.all (fun v => v.pass) }

/-- A passing verdict: informational severity, pass = true. -/
def passVerdict (id : String) (lim obs : ℚ) : RiskVerdict :=
  { ruleId := id, pass := true, severity := .INFO, message := "ok"
    limitValue := lim, observedValue := obs }

/-- A failing verdict of the given severity. -/
def failVerdict (id : String) (sev : Severity) (msg : String) (lim obs : ℚ) :
    RiskVerdict :=
  { ruleId := id, pass := false, severity := sev, message := msg
    limitValue := lim, observedValue := obs }

/-- Modelled from the spec: default rule — leverage ≤ configured cap
(`AUDIT_LEVERAGE_CAP`), BLOCK if exceeded (missing `risk.py`). -/
def leverageRule (cap : ℚ) : RiskRule :=
  { id := "leverage_cap"
    description := "leverage must not exceed the configured cap"
    evaluate := fun ctx => .ok (
      if ctx.leverage ≤ cap then passVerdict "leverage_cap" cap ctx.leverage
      else failVerdict "leverage_cap" .BLOCK "leverage exceeds cap"
        cap ctx.leverage)
    severityClass := .BLOCK }

/-- Modelled from the spec: default rule — distance-to-liquidation ≥
configured minimum percentage (`AUDIT_DIST_TO_LIQ_MIN`), BLOCK if breached. -/
def distToLiqRule (minPct : ℚ) : RiskRule :=
  { id := "dist_to_liq_min"
    description := "distance to liquidation must stay above the minimum"
    evaluate := fun ctx => .ok (
      if minPct ≤ ctx.distToLiqPct then
        passVerdict "dist_to_liq_min" minPct ctx.distToLiqPct
      else failVerdict "dist_to_liq_min" .BLOCK "too close to liquidation"
        minPct ctx.distToLiqPct)
    severityClass := .BLOCK }

/-- Modelled from the spec: default rule — cumulative daily loss ≤ configured
maximum percentage (`AUDIT_DAILY_MAX_LOSS`), BLOCK if breached. -/
def dailyLossRule (maxPct : ℚ) : RiskRule :=
  { id := "daily_max_loss"
    description := "cumulative daily loss must not exceed the maximum"
    evaluate := fun ctx => .ok (
      if ctx.dailyLossPct ≤ maxPct then
        passVerdict "daily_max_loss" maxPct ctx.dailyLossPct
      else failVerdict "daily_max_loss" .BLOCK "daily loss limit breached"
        maxPct ctx.dailyLossPct)
    severityClass := .BLOCK }

/-- Modelled from the spec: default rule — consecutive-loss count < configured
cooldown threshold (`AUDIT_CONSECUTIVE_LOSS_COOLDOWN`), BLOCK if breached. -/
def consecutiveLossRule (cooldown : Nat) : RiskRule :=
  { id := "consecutive_loss_cooldown"
    description := "a cooldown period must elapse after consecutive losses"
    evaluate := fun ctx => .ok (
      if ctx.consecutiveLosses < cooldown then
        passVerdict "consecutive_loss_cooldown" (cooldown : ℚ)
          (ctx.consecutiveLosses : ℚ)
      else failVerdict "consecutive_loss_cooldown" .BLOCK
        "consecutive loss cooldown active" (cooldown : ℚ)
        (ctx.consecutiveLosses : ℚ))
    severityClass := .BLOCK }

/-- Modelled from the spec: default rule — proposed slippage ≤ configured
maximum basis points (`AUDIT_MAX_SLIPPAGE_BPS`), WARNING if breached (does not
block, but is logged and surfaced). -/
def slippageRule (maxBps : ℚ) : RiskRule :=
  { id := "max_slippage_bps"
    description := "proposed slippage should stay below the maximum"
    evaluate := fun ctx => .ok (
      if ctx.proposedSlippageBps ≤ maxBps then
        passVerdict "max_slippage_bps" maxBps ctx.proposedSlippageBps
      else failVerdict "max_slippage_bps" .WARNING "slippage above limit"
        maxBps ctx.proposedSlippageBps)
    severityClass := .WARNING }

/-- Modelled from the spec: `ExplanationTemplate` (missing `explain.py`):
identifier, an applicability predicate over the context, and a function
computing the rendered text and a confidence/quality score; a template
implementation may raise, embedded as the `Except.error` branch. -/
structure ExplanationTemplate where
  id : String
  applies : DecisionContext → Bool
  compute : DecisionContext → Except String (String × ℚ)

/-- Modelled from the spec: `ExplainCreated` event payload (missing
`events.py`): chosen template id, rendered text, quality score, and the
NORMAL / LOW_QUALITY flag. -/
structure ExplainCreated where
  templateId : String
  text : String
  qualityScore : ℚ
  lowQuality : Bool
deriving DecidableEq, Repr

/-- Modelled from the spec: the generic fallback explanation used when no
template's applicability predicate matches — quality score exactly 0. -/
def fallbackExplain (threshold : ℚ) : ExplainCreated :=
  { templateId := "fallback"
    text := "signal generated; no narrative pattern matched"
    qualityScore := 0
    lowQuality := decide (0 < threshold) }

/-- Modelled from the spec: `Generate(ctx) -> ExplainCreated` (missing
`explain.py`): templates are tried in priority order and the first whose
applicability predicate matches is selected; if none matches, the generic
fallback is used with quality score 0; quality below the configured threshold
is flagged LOW_QUALITY but still recorded.  A selected template whose compute
function raises surfaces as the `Except.error` branch — an EvaluationFault
that the orchestrator converts to a fail-closed BLOCK verdict. -/
def Generate (threshold : ℚ) (templates : List ExplanationTemplate)
    (ctx : DecisionContext) : Except String ExplainCreated :=
  match templates.find? (fun t => t.applies ctx) with
  | none => .ok (fallbackExplain threshold)
  | some t =>
      match t.compute ctx with
      | .ok (text, q) =>
          .ok { templateId := t.id, text := text, qualityScore := q
                lowQuality := decide (q < threshold) }
      | .error e => .error e

/-- Modelled from the spec: the audit-event type tags. -/
inductive EventType where
  | signalGenerated
  | riskChecked
  | explainCreated
  | decision
  | orderSubmitted
  | orderFilled
  | orderRejected
deriving DecidableEq, Repr

/-- Modelled from the spec: order outcome status reported by the execution
collaborator. -/
inductive OrderStatus where
  | SUBMITTED
  | FILLED
  | REJECTED
deriving DecidableEq, Repr

/-- The audit-event type corresponding to an order outcome status. -/
def orderEventType : OrderStatus → EventType
  | .SUBMITTED => .orderSubmitted
  | .FILLED => .orderFilled
  | .REJECTED => .orderRejected

/-- Modelled from the spec: `Decision` (missing `events.py`): correlation id,
approved flag, the most-restrictive verdict that drove the outcome (if
rejected), the chosen explanation (if approved), timestamp. -/
structure Decision where
  correlationId : Nat
  approved : Bool
  drivingVerdict : Option RiskVerdict
  explanation : Option ExplainCreated
  timestamp : Nat
deriving DecidableEq, Repr

/-- Modelled from the spec: the type-specific payload carried by an audit
event envelope. -/
inductive AuditPayload where
  | signal (direction : Direction) (strategyName : String)
  | risk (rc : RiskChecked)
  | explain (ex : ExplainCreated)
  | decision (d : Decision)
  | order (status : OrderStatus) (orderId : String) (reason : String)
deriving DecidableEq, Repr

/-- Modelled from the spec: `AuditEvent` (missing `events.py`): event id,
correlation id, timestamp, symbol, event type tag, and a type-specific
payload; append-only, never mutated after creation.  `day` is the calendar
day partition the sequential log files are keyed by. -/
structure AuditEvent where
  eventId : Nat
  correlationId : Nat
  timestamp : Nat
  day : Nat
  symbol : String
  eventType : EventType
  payload : AuditPayload
deriving DecidableEq, Repr

/-- Modelled from the spec: the audit-layer configuration knobs held by
`TraderConfig` (`AUDIT_*` settings of the missing configuration surface). -/
structure AuditConfig where
  auditEnabled : Bool
  leverageCap : ℚ
  distToLiqMin : ℚ
  dailyMaxLoss : ℚ
  consecutiveLossCooldown : Nat
  maxSlippageBps : ℚ
  templates : List ExplanationTemplate
  qualityThreshold : ℚ

/-- Modelled from the spec: the default rule set registered at
initialization, in declaration order: leverage cap, distance-to-liquidation,
daily loss, consecutive-loss cooldown, slippage (missing `risk.py`). -/
def defaultRules (cfg : AuditConfig) : List RiskRule :=
  [leverageRule cfg.leverageCap,
   distToLiqRule cfg.distToLiqMin,
   dailyLossRule cfg.dailyMaxLoss,
   consecutiveLossRule cfg.consecutiveLossCooldown,
   slippageRule cfg.maxSlippageBps]

/-- Modelled from the spec: the fail-closed BLOCK verdict the orchestrator
creates when the Explanation Generator fails unexpectedly (an
EvaluationFault): recovered locally, converted to BLOCK, and kept distinct
from the rules' RiskChecked verdicts — a system fault, not a policy
violation, so operators can tell "risk denied" from "risk engine broken". -/
def explainFaultVerdict : RiskVerdict :=
  failVerdict "explanation_generator" .BLOCK "explanation evaluation failure"
    0 0

/-- The fail-closed verdicts contributed by the explanation generation: none
when it succeeds, the EvaluationFault BLOCK verdict when it raises. -/
def explainFaults (cfg : AuditConfig) (ctx : DecisionContext) :
    List RiskVerdict :=
  match Generate cfg.qualityThreshold cfg.templates ctx with
  | .ok _ => []
  | .error _ => [explainFaultVerdict]

/-- The explanation recorded in the ExplainCreated event: the generated one,
or the fallback when the generator faulted — the audit trail is never
silently skipped because of an internal fault. -/
def explainOrFallback (cfg : AuditConfig) (ctx : DecisionContext) :
    ExplainCreated :=
  match Generate cfg.qualityThreshold cfg.templates ctx with
  | .ok ex => ex
  | .error _ => fallbackExplain cfg.qualityThreshold

/-- Modelled from the spec: the decision takes the strictest result (取最嚴格
結果) — it is approved exactly when the most-restrictive reduced verdict does
not have BLOCK severity (missing `execution.py`). -/
def decisionApproved (vs : List RiskVerdict) : Bool :=
  match mostRestrictive vs with
  | none => true
  | some m => !(m.severity == Severity.BLOCK)

/-- The timestamp's calendar-day partition key. -/
def dayOf (ts : Nat) : Nat := ts / 86400

/-- Build one audit-event envelope for the given decision context. -/
def mkEvent (eid : Nat) (ctx : DecisionContext) (ts : Nat) (ty : EventType)
    (p : AuditPayload) : AuditEvent :=
  { eventId := eid, correlationId := ctx.correlationId, timestamp := ts
    day := dayOf ts, symbol := ctx.symbol, eventType := ty, payload := p }

/-- Modelled from the spec: the orchestrator pipeline body (missing
`execution.py`), over the rule set registered at initialization:
emit SignalGenerated, evaluate every rule and reduce the verdicts, generate
the explanation, construct the Decision (driving verdict if rejected, chosen
explanation if approved), and emit RiskChecked, ExplainCreated and a Decision
event, all sharing the correlation id, in that order.  An Explanation
Generator fault is treated as BLOCK: its fail-closed verdict joins the
decision's verdicts (after the rules, and outside the RiskChecked
aggregation, where it would masquerade as a policy violation) while the
pipeline still completes, emitting the fallback explanation. -/
def runPipeline (cfg : AuditConfig) (rules : List RiskRule)
    (ctx : DecisionContext) (now : Nat) : Decision × List AuditEvent :=
  let verdicts := evaluateRules rules ctx ++ explainFaults cfg ctx
  let rc := reduceVerdicts (evaluateRules rules ctx)
  let ex := explainOrFallback cfg ctx
  let approved := decisionApproved verdicts
  let d : Decision :=
    { correlationId := ctx.correlationId
      approved := approved
      drivingVerdict := if approved then none else mostRestrictive verdicts
      explanation := if approved then some ex else none
      timestamp := now }
  (d, [mkEvent 0 ctx now .signalGenerated
         (.signal ctx.direction ctx.strategyName),
       mkEvent 1 ctx now .riskChecked (.risk rc),
       mkEvent 2 ctx now .explainCreated (.explain ex),
       mkEvent 3 ctx now .decision (.decision d)])

/-- Modelled from the spec: `Decide(signal, risk_state) -> Decision`, the
primary synchronous entry point (missing `execution.py`), running the
pipeline over the default rule set. -/
def Decide (cfg : AuditConfig) (sig : TradingSignal) (rs : RiskStateSnapshot)
    (cid : Nat) (now : Nat) : Decision × List AuditEvent :=
  runPipeline cfg (defaultRules cfg) (buildContext sig rs cid) now

/-- Modelled from the spec: `ReportOrderOutcome` event construction (missing
`execution.py`): when the caller reports an order outcome tagged with the same
correlation id, the corresponding OrderSubmitted/OrderFilled/OrderRejected
event is emitted. -/
def mkOrderEvent (ctx : DecisionContext) (ts : Nat) (status : OrderStatus)
    (orderId reason : String) : AuditEvent :=
  mkEvent 4 ctx ts (orderEventType status) (.order status orderId reason)

/-- The full emitted event sequence of one decision's life-cycle, in emission
order: SignalGenerated, RiskChecked, ExplainCreated, Decision, then the
reported order outcome. -/
def decisionTrailEmitted (cfg : AuditConfig) (rules : List RiskRule)
    (ctx : DecisionContext) (now later : Nat) (status : OrderStatus)
    (orderId reason : String) : List AuditEvent :=
  (runPipeline cfg rules ctx now).2 ++ [mkOrderEvent ctx later status orderId reason]

/-- Modelled from the spec: the audit log store's state (missing `audit.py`):
the in-memory queue feeding the batched background writer, the append-only
sequential JSONL log (day-partitioned via each event's `day`), and the
queryable indexed SQLite store. -/
structure AuditLogStore where
  queue : List AuditEvent
  seqLog : List AuditEvent
  idxStore : List AuditEvent
deriving DecidableEq, Repr

/-- The empty audit log store. -/
def emptyStore : AuditLogStore := { queue := [], seqLog := [], idxStore := [] }

/-- Modelled from the spec: `Append(event)` enqueues the event; it returns
after the event is accepted into the in-memory queue, not after the durable
write (missing `audit.py`). -/
def Append (s : AuditLogStore) (e : AuditEvent) : AuditLogStore :=
  { s with queue := s.queue ++ [e] }

/-- Enqueue a batch of events in order. -/
def appendEvents (s : AuditLogStore) (es : List AuditEvent) : AuditLogStore :=
  { s with queue := s.queue ++ es }

/-- Modelled from the spec: `Flush()` drains the queue, writing each queued
event to both sinks atomically together, in queue order (missing
`audit.py`). -/
def Flush (s : AuditLogStore) : AuditLogStore :=
  { queue := []
    seqLog := s.seqLog ++ s.queue
    idxStore := s.idxStore ++ s.queue }

/-- An operation against the audit log store: enqueue one event, or flush. -/
inductive LogOp where
  | append (e : AuditEvent)
  | flush

/-- Apply one log operation. -/
def applyOp (s : AuditLogStore) : LogOp → AuditLogStore
  | .append e => Append s e
  | .flush => Flush s

/-- Apply a sequence of log operations in order. -/
def applyOps (s : AuditLogStore) : List LogOp → AuditLogStore
  | [] => s
  | op :: ops => applyOps (applyOp s op) ops

/-- Number of events recorded for calendar day `d` in a sink. -/
def dayCount (sink : List AuditEvent) (d : Nat) : Nat :=
  (sink.filter (fun e => e.day == d)).length

/-- Modelled from the spec: `GetDecisionTrail(correlation_id)` — the ordered
event list for one decision, read from the indexed store (missing
`audit.py`). -/
def GetDecisionTrail (s : AuditLogStore) (cid : Nat) : List AuditEvent :=
  s.idxStore.filter (fun e => e.correlationId == cid)

/-- Modelled from the spec: `process_trading_signal` of the integration layer
(missing `audit_integration.py`): when `AUDIT_ENABLED` is false the audit
layer is bypassed entirely — no rule evaluation, no events appended, the
signal subject only to the pre-existing risk system; when enabled, the
pipeline runs, its decision is reduced against the pre-existing risk verdict
(most-restrictive-wins) and all emitted events are appended to the store.
Returns the combined approval, the store after the call, and the events the
call emitted. -/
def processTradingSignal (cfg : AuditConfig) (ctx : DecisionContext)
    (now : Nat) (preExistingApproved : Bool) (s : AuditLogStore) :
    Bool × AuditLogStore × List AuditEvent :=
  if cfg.auditEnabled then
    let (d, evts) := runPipeline cfg (defaultRules cfg) ctx now
    (preExistingApproved && d.approved, appendEvents s evts, evts)
  else
    (preExistingApproved, s, [])

/-- An interleaving of two lists: the shape concurrent appends from two
independent decision pipelines can give the persisted log. -/
inductive Interleave : List AuditEvent → List AuditEvent → List AuditEvent → Prop
  | nil : Interleave [] [] []
  | left {l1 l2 l : List AuditEvent} (a : AuditEvent) :
      Interleave l1 l2 l → Interleave (a :: l1) l2 (a :: l)
  | right {l1 l2 l : List AuditEvent} (a : AuditEvent) :
      Interleave l1 l2 l → Interleave l1 (a :: l2) (a :: l)

/-- `m` is the earliest verdict of maximal severity in `l`: everything before
it is of strictly lower severity, everything after it of no higher one.  This
is the specification's phrase "highest severity, ties between equal-severity
verdicts broken by rule declaration order". -/
def isEarliestMax (l : List RiskVerdict) (m : RiskVerdict) : Prop :=
  ∃ l1 l2, l = l1 ++ m :: l2 ∧
    (∀ v ∈ l1, v.severity.rank < m.severity.rank) ∧
    (∀ v ∈ l2, v.severity.rank ≤ m.severity.rank)

/-! ### Concrete fixtures used to exercise the theorems on explicit inputs -/

/-- The default audit configuration of the README (`AUDIT_LEVERAGE_CAP = 2`,
`AUDIT_DIST_TO_LIQ_MIN = 15`, `AUDIT_DAILY_MAX_LOSS = 3`,
`AUDIT_CONSECUTIVE_LOSS_COOLDOWN = 3`, `AUDIT_MAX_SLIPPAGE_BPS = 5`), with no
explanation templates enabled. -/
def cfgW : AuditConfig :=
  { auditEnabled := true
    leverageCap := 2
    distToLiqMin := 15
    dailyMaxLoss := 3
    consecutiveLossCooldown := 3
    maxSlippageBps := 5
    templates := []
    qualityThreshold := 0 }

/-- The default configuration with the audit layer switched off. -/
def cfgOff : AuditConfig := { cfgW with auditEnabled := false }

/-- A template whose applicability predicate never matches. -/
def tplNever : ExplanationTemplate :=
  { id := "trend_atr_v2"
    applies := fun _ => false
    compute := fun _ => .ok ("trend", 1) }

/-- The default configuration with one never-matching template enabled. -/
def cfgTpl : AuditConfig := { cfgW with templates := [tplNever] }

/-- A template that always applies and whose compute function always
raises. -/
def tplRaise : ExplanationTemplate :=
  { id := "raise"
    applies := fun _ => true
    compute := fun _ => .error "boom" }

/-- The default configuration whose only template always applies and always
raises. -/
def cfgRaise : AuditConfig := { cfgW with templates := [tplRaise] }

/-- A benign decision context: every default rule passes on it. -/
def ctxBase : DecisionContext :=
  { symbol := "BTCUSDT"
    strategyName := "strategy_ema3_ema8_crossover"
    direction := .BUY
    indicators := []
    leverage := 1
    distToLiqPct := 20
    dailyLossPct := 0
    consecutiveLosses := 0
    proposedSlippageBps := 1
    correlationId := 7 }

/-- A context breaching the leverage cap (3 > 2). -/
def ctxLev : DecisionContext := { ctxBase with leverage := 3 }

/-- A context breaching both the leverage cap and the consecutive-loss
cooldown (3 losses with cooldown 3). -/
def ctxLevCool : DecisionContext :=
  { ctxBase with leverage := 3, consecutiveLosses := 3 }

/-- A context breaching only the consecutive-loss cooldown. -/
def ctxCool : DecisionContext := { ctxBase with consecutiveLosses := 3 }

/-- A context breaching only the slippage limit (9 bps > 5 bps). -/
def ctxSlip : DecisionContext :=
  { ctxBase with proposedSlippageBps := 9, correlationId := 8 }

/-- A rule whose evaluate function always raises. -/
def badRule : RiskRule :=
  { id := "bad"
    description := "a rule implementation that always raises"
    evaluate := fun _ => .error "boom"
    severityClass := .BLOCK }

/-- A failing WARNING verdict and a failing BLOCK verdict, in that order. -/
def vsMixed : List RiskVerdict :=
  [failVerdict "a" .WARNING "warn" 0 0, failVerdict "b" .BLOCK "block" 0 0]

/-- A single passing verdict. -/
def vsPass : List RiskVerdict := [passVerdict "a" 0 0]

/-! ## Properties of the verdict reduction -/

theorem Severity.rank_le_two (s : Severity) : s.rank ≤ 2 := by
  cases s <;> simp [Severity.rank]

theorem Severity.of_rank_eq_two {s : Severity} (h : s.rank = 2) :
    s = .BLOCK := by
  cases s <;> simp [Severity.rank] at h ⊢

theorem pickMaxGo_cons (a b : RiskVerdict) (t : List RiskVerdict) :
    pickMaxGo a (b :: t) = pickMaxGo (maxStep a b) t := rfl

theorem le_rank_maxStep (a b : RiskVerdict) :
    a.severity.rank ≤ (maxStep a b).severity.rank := by
  unfold maxStep
  split
  · omega
  · exact le_rfl

theorem le_rank_pickMaxGo (l : List RiskVerdict) :
    ∀ a : RiskVerdict, a.severity.rank ≤ (pickMaxGo a l).severity.rank := by
  induction l with
  | nil => intro a; exact le_rfl
  | cons b t ih =>
      intro a
      rw [pickMaxGo_cons]
      exact le_trans (le_rank_maxStep a b) (ih (maxStep a b))

theorem pickMaxGo_earliestMax (l : List RiskVerdict) :
    ∀ a : RiskVerdict, isEarliestMax (a :: l) (pickMaxGo a l) := by
  induction l with
  | nil => intro a; exact ⟨[], [], rfl, by simp, by simp⟩
  | cons b t ih =>
      intro a
      rw [pickMaxGo_cons]
      by_cases h : a.severity.rank < b.severity.rank
      · have hb : maxStep a b = b := by simp [maxStep, h]
        obtain ⟨l1, l2, he, h1, h2⟩ := ih (maxStep a b)
        rw [hb] at he h1 h2 ⊢
        refine ⟨a :: l1, l2, ?_, ?_, h2⟩
        · simpa using congrArg (List.cons a) he
        · intro v hv
          rcases List.mem_cons.mp hv with hv | hv
          · subst hv
            exact lt_of_lt_of_le h (le_rank_pickMaxGo t b)
          · exact h1 v hv
      · have hb : maxStep a b = a := by simp [maxStep, h]
        obtain ⟨l1, l2, he, h1, h2⟩ := ih (maxStep a b)
        rw [hb] at he h1 h2 ⊢
        cases l1 with
        | nil =>
            simp only [List.nil_append] at he
            injection he with hma hl2
            refine ⟨[], b :: t, ?_, by simp, ?_⟩
            · rw [← hma]
              rfl
            · intro v hv
              rcases List.mem_cons.mp hv with hv | hv
              · subst hv
                rw [← hma]
                omega
              · rw [hl2] at hv
                exact h2 v hv
        | cons a0 l1' =>
            simp only [List.cons_append] at he
            injection he with hma ht
            refine ⟨a :: b :: l1', l2, ?_, ?_, h2⟩
            · conv_lhs => rw [ht]
              simp
            · intro v hv
              have halt : a.severity.rank < (pickMaxGo a t).severity.rank := by
                have := h1 a0 (by simp)
                rw [← hma] at this
                exact this
              rcases List.mem_cons.mp hv with hv | hv
              · subst hv; exact halt
              · rcases List.mem_cons.mp hv with hv | hv
                · subst hv; omega
                · exact h1 v (by simp [hv])

theorem pickMaxGo_max (l : List RiskVerdict) (a : RiskVerdict) :
    ∀ v ∈ a :: l, v.severity.rank ≤ (pickMaxGo a l).severity.rank := by
  intro v hv
  obtain ⟨l1, l2, he, h1, h2⟩ := pickMaxGo_earliestMax l a
  rw [he] at hv
  rcases List.mem_append.mp hv with hv | hv
  · exact le_of_lt (h1 v hv)
  · rcases List.mem_cons.mp hv with hv | hv
    · subst hv; exact le_rfl
    · exact h2 v hv

theorem pickMaxGo_eq_self (l : List RiskVerdict) :
    ∀ a : RiskVerdict, (∀ v ∈ l, v.severity.rank ≤ a.severity.rank) →
    pickMaxGo a l = a := by
  induction l with
  | nil => intro a _; rfl
  | cons b t ih =>
      intro a h
      rw [pickMaxGo_cons]
      have hb : maxStep a b = a := by
        have := h b (by simp)
        simp [maxStep]
        omega
      rw [hb]
      exact ih a (fun v hv => h v (by simp [hv]))

/-- A failing BLOCK-severity verdict anywhere in the list forces the reduced
decision to be rejected. -/
theorem blocked_not_approved {vs : List RiskVerdict} {v : RiskVerdict}
    (hm : v ∈ vs) (hp : v.pass = false) (hb : v.severity = .BLOCK) :
    decisionApproved vs = false := by
  have hmem : v ∈ vs.filter (fun u => !u.pass) :=
    List.mem_filter.mpr ⟨hm, by simp [hp]⟩
  cases hf : vs.filter (fun u => !u.pass) with
  | nil => rw [hf] at hmem; cases hmem
  | cons a t =>
      rw [hf] at hmem
      have hmax := pickMaxGo_max t a v hmem
      rw [hb] at hmax
      have h2 : (pickMaxGo a t).severity.rank = 2 :=
        le_antisymm (Severity.rank_le_two _) (by simpa [Severity.rank] using hmax)
      have hsev := Severity.of_rank_eq_two h2
      unfold decisionApproved mostRestrictive
      rw [hf]
      simp [pickMax, hsev]

/-- If the failing sub-list starts with a BLOCK verdict, that verdict is the
most restrictive one. -/
theorem mostRestrictive_of_filter {vs : List RiskVerdict} {v : RiskVerdict}
    {l : List RiskVerdict} (hf : vs.filter (fun u => !u.pass) = v :: l)
    (hb : v.severity = .BLOCK) : mostRestrictive vs = some v := by
  unfold mostRestrictive
  rw [hf]
  have : pickMaxGo v l = v := by
    apply pickMaxGo_eq_self
    intro u _
    rw [hb]
    exact Severity.rank_le_two _
  simp [pickMax, this]

/-! ## Properties of the pipeline, the default rules and the log store -/

theorem runPipeline_approved (cfg : AuditConfig) (rules : List RiskRule)
    (ctx : DecisionContext) (now : Nat) :
    (runPipeline cfg rules ctx now).1.approved =
      decisionApproved (evaluateRules rules ctx ++ explainFaults cfg ctx) := rfl

theorem runPipeline_driving (cfg : AuditConfig) (rules : List RiskRule)
    (ctx : DecisionContext) (now : Nat) :
    (runPipeline cfg rules ctx now).1.drivingVerdict =
      if decisionApproved (evaluateRules rules ctx ++ explainFaults cfg ctx)
      then none
      else mostRestrictive (evaluateRules rules ctx ++ explainFaults cfg ctx) :=
  rfl

theorem runPipeline_events (cfg : AuditConfig) (rules : List RiskRule)
    (ctx : DecisionContext) (now : Nat) :
    (runPipeline cfg rules ctx now).2 =
      [mkEvent 0 ctx now .signalGenerated (.signal ctx.direction ctx.strategyName),
       mkEvent 1 ctx now .riskChecked
         (.risk (reduceVerdicts (evaluateRules rules ctx))),
       mkEvent 2 ctx now .explainCreated
         (.explain (explainOrFallback cfg ctx)),
       mkEvent 3 ctx now .decision (.decision (runPipeline cfg rules ctx now).1)] := rfl

/-- Every verdict produced by the default rule set that passes carries INFO
severity; in particular a BLOCK-severity default verdict always fails. -/
theorem default_pass_info (cfg : AuditConfig) (ctx : DecisionContext) :
    ∀ v ∈ evaluateRules (defaultRules cfg) ctx,
      v.pass = true → v.severity = .INFO := by
  intro v hv hp
  simp only [evaluateRules, defaultRules, List.map_cons, List.map_nil,
    List.mem_cons, List.not_mem_nil, or_false] at hv
  rcases hv with h | h | h | h | h <;>
    · simp only [runRule, leverageRule, distToLiqRule, dailyLossRule,
        consecutiveLossRule, slippageRule] at h
      split at h <;> subst h <;> simp_all [passVerdict, failVerdict]

/-- An interleaving keeps exactly the left component when filtered by a
predicate holding on the left events and failing on the right events. -/
theorem interleave_filter {l1 l2 l : List AuditEvent}
    (h : Interleave l1 l2 l) (p : AuditEvent → Bool) :
    (∀ e ∈ l1, p e = true) → (∀ e ∈ l2, p e = false) → l.filter p = l1 := by
  induction h with
  | nil => intro _ _; rfl
  | left a h ih =>
      intro h1 h2
      have ha : p a = true := h1 a (by simp)
      simp [List.filter_cons, ha,
        ih (fun e he => h1 e (List.mem_cons_of_mem _ he)) h2]
  | right a h ih =>
      intro h1 h2
      have ha : p a = false := h2 a (by simp)
      simp [List.filter_cons, ha]
      exact ih h1 (fun e he => h2 e (List.mem_cons_of_mem _ he))

theorem interleave_nil_left (l : List AuditEvent) : Interleave [] l l := by
  induction l with
  | nil => exact .nil
  | cons a t ih => exact .right a ih

theorem interleave_nil_right (l : List AuditEvent) : Interleave l [] l := by
  induction l with
  | nil => exact .nil
  | cons a t ih => exact .left a ih

theorem interleave_append_left (l1 l2 : List AuditEvent) :
    Interleave l1 l2 (l1 ++ l2) := by
  induction l1 with
  | nil => exact interleave_nil_left l2
  | cons a t ih => exact .left a ih

theorem interleave_append_right (l1 l2 : List AuditEvent) :
    Interleave l1 l2 (l2 ++ l1) := by
  induction l2 with
  | nil => exact interleave_nil_right l1
  | cons a t ih => exact .right a ih

/-- Every event of one decision's emitted trail carries that decision's
correlation id. -/
theorem trail_correlation (cfg : AuditConfig) (rules : List RiskRule)
    (ctx : DecisionContext) (now later : Nat) (st : OrderStatus)
    (oid r : String) :
    ∀ e ∈ decisionTrailEmitted cfg rules ctx now later st oid r,
      e.correlationId = ctx.correlationId := by
  intro e he
  simp only [decisionTrailEmitted, runPipeline_events, List.mem_append,
    List.mem_cons, List.not_mem_nil, or_false, mkOrderEvent] at he
  rcases he with (h | h | h | h) | h <;> subst h <;> rfl

theorem applyOps_append (ops1 ops2 : List LogOp) :
    ∀ s : AuditLogStore,
      applyOps s (ops1 ++ ops2) = applyOps (applyOps s ops1) ops2 := by
  induction ops1 with
  | nil => intro s; rfl
  | cons op ops ih => intro s; exact ih (applyOp s op)

/-- Both sinks receive exactly the same flushed events: the invariant behind
the daily reconciliation. -/
theorem seqLog_eq_idxStore (ops : List LogOp) :
    ∀ s : AuditLogStore, s.seqLog = s.idxStore →
      (applyOps s ops).seqLog = (applyOps s ops).idxStore := by
  induction ops with
  | nil => intro s h; exact h
  | cons op ops ih =>
      intro s h
      apply ih
      cases op <;> simp [applyOp, Append, Flush, h]

/-! ## Claims -/

/-- C1: for every DecisionContext, the Decision produced by Decide (the
pipeline over the default rule set) has approved = true only if every
RiskVerdict in the corresponding RiskChecked event has severity strictly
below BLOCK — equivalently, the presence of any BLOCK-severity verdict among
the RiskChecked event's verdicts forces approved = false. -/
theorem approved_only_if_no_block_verdict (cfg : AuditConfig)
    (ctx : DecisionContext) (now : Nat) :
    (∃ e ∈ (runPipeline cfg (defaultRules cfg) ctx now).2,
       e.eventType = EventType.riskChecked ∧
       e.payload = AuditPayload.risk
         (reduceVerdicts (evaluateRules (defaultRules cfg) ctx))) ∧
    ∀ v ∈ (reduceVerdicts (evaluateRules (defaultRules cfg) ctx)).verdicts,
      v.severity = Severity.BLOCK →
      (runPipeline cfg (defaultRules cfg) ctx now).1.approved = false := by
  constructor
  · refine ⟨mkEvent 1 ctx now .riskChecked
      (.risk (reduceVerdicts (evaluateRules (defaultRules cfg) ctx))),
      ?_, rfl, rfl⟩
    rw [runPipeline_events]
    simp
  · intro v hv hb
    have hv' : v ∈ evaluateRules (defaultRules cfg) ctx := hv
    have hp : v.pass = false := by
      cases hpv : v.pass
      · rfl
      · have hinfo := default_pass_info cfg ctx v hv' hpv
        rw [hinfo] at hb
        exact Severity.noConfusion hb
    rw [runPipeline_approved]
    exact blocked_not_approved (List.mem_append.mpr (Or.inl hv')) hp hb

/-- C1 witness: on the default configuration and a context with leverage 3
(cap 2), the BLOCK leverage verdict is among the RiskChecked verdicts and the
decision is rejected. -/
theorem approved_only_if_no_block_verdict_witness :
    (∃ e ∈ (runPipeline cfgW (defaultRules cfgW) ctxLev 0).2,
       e.eventType = EventType.riskChecked ∧
       e.payload = AuditPayload.risk
         (reduceVerdicts (evaluateRules (defaultRules cfgW) ctxLev))) ∧
    (runPipeline cfgW (defaultRules cfgW) ctxLev 0).1.approved = false :=
  ⟨(approved_only_if_no_block_verdict cfgW ctxLev 0).1,
   (approved_only_if_no_block_verdict cfgW ctxLev 0).2
     (failVerdict "leverage_cap" .BLOCK "leverage exceeds cap" 2 3)
     (by decide) (by decide)⟩

/-- If the head of the verdict list is a failing BLOCK verdict, it is the
most restrictive verdict of the whole list. -/
theorem mostRestrictive_cons_block {v : RiskVerdict} (vs : List RiskVerdict)
    (hp : v.pass = false) (hb : v.severity = .BLOCK) :
    mostRestrictive (v :: vs) = some v := by
  have hf : (v :: vs).filter (fun u => !u.pass) =
      v :: vs.filter (fun u => !u.pass) := by
    simp [List.filter_cons, hp]
  exact mostRestrictive_of_filter hf hb

/-- C2: the verdict reduction satisfies: overall pass = AND of all verdicts'
pass flags; when some verdict fails, the most-restrictive verdict is the
earliest highest-severity failing verdict (BLOCK > WARNING > INFO, ties by
declaration order); when all pass, it is the earliest highest-severity
passing verdict; and whenever one failing verdict is WARNING and another is
BLOCK, the reduced most-restrictive verdict has severity BLOCK. -/
theorem verdict_reduction_characterization :
    (∀ vs : List RiskVerdict,
        (reduceVerdicts vs).overallPass = vs.all (fun v => v.pass)) ∧
    (∀ vs : List RiskVerdict, vs.filter (fun v => !v.pass) ≠ [] →
        ∃ m, (reduceVerdicts vs).mostRestrictiveVerdict = some m ∧
          isEarliestMax (vs.filter (fun v => !v.pass)) m) ∧
    (∀ vs : List RiskVerdict, vs ≠ [] → vs.all (fun v => v.pass) = true →
        ∃ m, (reduceVerdicts vs).mostRestrictiveVerdict = some m ∧
          isEarliestMax vs m) ∧
    (∀ vs : List RiskVerdict, ∀ v ∈ vs, ∀ w ∈ vs,
        v.pass = false → w.pass = false → v.severity = .WARNING →
        w.severity = .BLOCK →
        ∃ m, (reduceVerdicts vs).mostRestrictiveVerdict = some m ∧
          m.severity = .BLOCK) := by
  refine ⟨fun vs => rfl, ?_, ?_, ?_⟩
  · intro vs hne
    cases hf : vs.filter (fun v => !v.pass) with
    | nil => exact absurd hf hne
    | cons a t =>
        refine ⟨pickMaxGo a t, ?_, ?_⟩
        · show mostRestrictive vs = _
          unfold mostRestrictive
          rw [hf]
          rfl
        · exact pickMaxGo_earliestMax t a
  · intro vs hne hall
    have hf : vs.filter (fun v => !v.pass) = [] := by
      rw [List.filter_eq_nil_iff]
      intro a ha
      have := List.all_eq_true.mp hall a ha
      simp [this]
    cases vs with
    | nil => exact absurd rfl hne
    | cons a t =>
        refine ⟨pickMaxGo a t, ?_, pickMaxGo_earliestMax t a⟩
        show mostRestrictive (a :: t) = _
        unfold mostRestrictive
        rw [hf]
        rfl
  · intro vs v hv w hw hpv hpw hsv hsw
    have hmem : w ∈ vs.filter (fun u => !u.pass) :=
      List.mem_filter.mpr ⟨hw, by simp [hpw]⟩
    cases hf : vs.filter (fun u => !u.pass) with
    | nil => rw [hf] at hmem; cases hmem
    | cons a t =>
        rw [hf] at hmem
        have hmax := pickMaxGo_max t a w hmem
        rw [hsw] at hmax
        have h2 : (pickMaxGo a t).severity.rank = 2 :=
          le_antisymm (Severity.rank_le_two _)
            (by simpa [Severity.rank] using hmax)
        refine ⟨pickMaxGo a t, ?_, Severity.of_rank_eq_two h2⟩
        show mostRestrictive vs = _
        unfold mostRestrictive
        rw [hf]
        rfl

/-- C2 witness: on the list [failing WARNING, failing BLOCK] (and the
all-passing singleton list), each conjunct of the characterization holds. -/
theorem verdict_reduction_characterization_witness :
    ((reduceVerdicts vsMixed).overallPass = vsMixed.all (fun v => v.pass)) ∧
    (∃ m, (reduceVerdicts vsMixed).mostRestrictiveVerdict = some m ∧
       isEarliestMax (vsMixed.filter (fun v => !v.pass)) m) ∧
    (∃ m, (reduceVerdicts vsPass).mostRestrictiveVerdict = some m ∧
       isEarliestMax vsPass m) ∧
    (∃ m, (reduceVerdicts vsMixed).mostRestrictiveVerdict = some m ∧
       m.severity = .BLOCK) :=
  ⟨verdict_reduction_characterization.1 vsMixed,
   verdict_reduction_characterization.2.1 vsMixed (by decide),
   verdict_reduction_characterization.2.2.1 vsPass (by decide) (by decide),
   verdict_reduction_characterization.2.2.2 vsMixed
     (failVerdict "a" .WARNING "warn" 0 0) (by decide)
     (failVerdict "b" .BLOCK "block" 0 0) (by decide)
     (by decide) (by decide) (by decide) (by decide)⟩

/-- C3: a rule whose evaluate function raises is converted to a failing BLOCK
verdict with message "rule evaluation failure: <rule id>", that verdict is
collected with the others, and the pipeline still completes with
approved = false.  `runPipeline` is a total function, so no exception from
policy or explanation evaluation can propagate to the caller. -/
theorem rule_failure_fail_closed (cfg : AuditConfig) (rules : List RiskRule)
    (ctx : DecisionContext) (now : Nat) (r : RiskRule) (e : String)
    (hr : r ∈ rules) (he : r.evaluate ctx = .error e) :
    runRule r ctx =
      failVerdict r.id .BLOCK ("rule evaluation failure: " ++ r.id) 0 0 ∧
    failVerdict r.id .BLOCK ("rule evaluation failure: " ++ r.id) 0 0 ∈
      evaluateRules rules ctx ∧
    (runPipeline cfg rules ctx now).1.approved = false := by
  have h1 : runRule r ctx =
      failVerdict r.id .BLOCK ("rule evaluation failure: " ++ r.id) 0 0 := by
    unfold runRule
    rw [he]
    rfl
  have hmem : failVerdict r.id .BLOCK ("rule evaluation failure: " ++ r.id)
      0 0 ∈ evaluateRules rules ctx :=
    List.mem_map.mpr ⟨r, hr, h1⟩
  refine ⟨h1, hmem, ?_⟩
  rw [runPipeline_approved]
  exact blocked_not_approved (List.mem_append.mpr (Or.inl hmem)) rfl rfl

/-- C3 witness: a concrete rule that always raises yields the fail-closed
BLOCK verdict and a rejected decision on the benign context. -/
theorem rule_failure_fail_closed_witness :
    runRule badRule ctxBase =
      failVerdict "bad" .BLOCK ("rule evaluation failure: " ++ "bad") 0 0 ∧
    failVerdict "bad" .BLOCK ("rule evaluation failure: " ++ "bad") 0 0 ∈
      evaluateRules [badRule] ctxBase ∧
    (runPipeline cfgW [badRule] ctxBase 0).1.approved = false :=
  rule_failure_fail_closed cfgW [badRule] ctxBase 0 badRule "boom"
    (List.mem_singleton.mpr rfl) rfl

/-- C4: whenever the context's leverage exceeds the configured cap, the
decision is rejected and the driving verdict is exactly the leverage rule's
failing BLOCK verdict. -/
theorem leverage_breach_blocks (cfg : AuditConfig) (ctx : DecisionContext)
    (now : Nat) (h : ¬ ctx.leverage ≤ cfg.leverageCap) :
    (runPipeline cfg (defaultRules cfg) ctx now).1.approved = false ∧
    (runPipeline cfg (defaultRules cfg) ctx now).1.drivingVerdict =
      some (failVerdict "leverage_cap" .BLOCK "leverage exceeds cap"
        cfg.leverageCap ctx.leverage) := by
  have hhead : runRule (leverageRule cfg.leverageCap) ctx =
      failVerdict "leverage_cap" .BLOCK "leverage exceeds cap"
        cfg.leverageCap ctx.leverage := by
    unfold runRule leverageRule
    simp [if_neg h]
  have hvs : evaluateRules (defaultRules cfg) ctx =
      failVerdict "leverage_cap" .BLOCK "leverage exceeds cap"
          cfg.leverageCap ctx.leverage ::
        [runRule (distToLiqRule cfg.distToLiqMin) ctx,
         runRule (dailyLossRule cfg.dailyMaxLoss) ctx,
         runRule (consecutiveLossRule cfg.consecutiveLossCooldown) ctx,
         runRule (slippageRule cfg.maxSlippageBps) ctx] := by
    show runRule (leverageRule cfg.leverageCap) ctx :: _ = _
    rw [hhead]
    rfl
  have hmr : mostRestrictive (evaluateRules (defaultRules cfg) ctx ++
      explainFaults cfg ctx) =
      some (failVerdict "leverage_cap" .BLOCK "leverage exceeds cap"
        cfg.leverageCap ctx.leverage) := by
    rw [hvs]
    exact mostRestrictive_cons_block _ rfl rfl
  have hmem : failVerdict "leverage_cap" .BLOCK "leverage exceeds cap"
      cfg.leverageCap ctx.leverage ∈ evaluateRules (defaultRules cfg) ctx := by
    rw [hvs]
    exact List.mem_cons_self _ _
  have happ : decisionApproved (evaluateRules (defaultRules cfg) ctx ++
      explainFaults cfg ctx) = false :=
    blocked_not_approved (List.mem_append.mpr (Or.inl hmem)) rfl rfl
  constructor
  · rw [runPipeline_approved]
    exact happ
  · rw [runPipeline_driving, happ]
    simp [hmr]

/-- C4 witness: leverage 3 against cap 2 on the default configuration — the
decision is rejected and driven by the leverage rule's BLOCK verdict. -/
theorem leverage_breach_blocks_witness :
    (runPipeline cfgW (defaultRules cfgW) ctxLev 0).1.approved = false ∧
    (runPipeline cfgW (defaultRules cfgW) ctxLev 0).1.drivingVerdict =
      some (failVerdict "leverage_cap" .BLOCK "leverage exceeds cap"
        cfgW.leverageCap ctxLev.leverage) :=
  leverage_breach_blocks cfgW ctxLev 0 (by decide)

/-- C5 counterexample: with the default configuration (cooldown 3), a context
whose consecutive-loss count is 3 AND whose leverage is 3 (cap 2) is indeed
rejected, but the driving verdict references the leverage rule — declared
earlier, so it wins the BLOCK-severity tie — not the consecutive-loss
cooldown rule; so the driving verdict does NOT reference the cooldown rule
"regardless of all other context values". -/
theorem cooldown_driving_verdict_counterexample :
    cfgW.consecutiveLossCooldown ≤ ctxLevCool.consecutiveLosses ∧
    (runPipeline cfgW (defaultRules cfgW) ctxLevCool 0).1.approved = false ∧
    (runPipeline cfgW (defaultRules cfgW) ctxLevCool 0).1.drivingVerdict =
      some (failVerdict "leverage_cap" .BLOCK "leverage exceeds cap" 2 3) ∧
    "leverage_cap" ≠ "consecutive_loss_cooldown" := by
  refine ⟨by decide, by decide, by decide, by decide⟩

/-- C5 (amended): whenever the consecutive-loss count reaches the configured
cooldown threshold, the decision is rejected regardless of all other context
values and the failing BLOCK cooldown verdict is among the RiskChecked
verdicts; the driving verdict references the cooldown rule whenever no
earlier-declared rule (leverage, distance-to-liquidation, daily loss) also
fails. -/
theorem cooldown_breach_blocks (cfg : AuditConfig) (ctx : DecisionContext)
    (now : Nat) (h : cfg.consecutiveLossCooldown ≤ ctx.consecutiveLosses) :
    (runPipeline cfg (defaultRules cfg) ctx now).1.approved = false ∧
    failVerdict "consecutive_loss_cooldown" .BLOCK
        "consecutive loss cooldown active" (cfg.consecutiveLossCooldown : ℚ)
        (ctx.consecutiveLosses : ℚ) ∈
      (reduceVerdicts (evaluateRules (defaultRules cfg) ctx)).verdicts ∧
    (ctx.leverage ≤ cfg.leverageCap → cfg.distToLiqMin ≤ ctx.distToLiqPct →
     ctx.dailyLossPct ≤ cfg.dailyMaxLoss →
     (runPipeline cfg (defaultRules cfg) ctx now).1.drivingVerdict =
       some (failVerdict "consecutive_loss_cooldown" .BLOCK
         "consecutive loss cooldown active" (cfg.consecutiveLossCooldown : ℚ)
         (ctx.consecutiveLosses : ℚ))) := by
  have hn : ¬ ctx.consecutiveLosses < cfg.consecutiveLossCooldown :=
    not_lt.mpr h
  have hcool : runRule (consecutiveLossRule cfg.consecutiveLossCooldown) ctx =
      failVerdict "consecutive_loss_cooldown" .BLOCK
        "consecutive loss cooldown active" (cfg.consecutiveLossCooldown : ℚ)
        (ctx.consecutiveLosses : ℚ) := by
    unfold runRule consecutiveLossRule
    simp [if_neg hn]
  have hmem : failVerdict "consecutive_loss_cooldown" .BLOCK
      "consecutive loss cooldown active" (cfg.consecutiveLossCooldown : ℚ)
      (ctx.consecutiveLosses : ℚ) ∈ evaluateRules (defaultRules cfg) ctx :=
    List.mem_map.mpr ⟨consecutiveLossRule cfg.consecutiveLossCooldown,
      by simp [defaultRules], hcool⟩
  refine ⟨?_, hmem, ?_⟩
  · rw [runPipeline_approved]
    exact blocked_not_approved (List.mem_append.mpr (Or.inl hmem)) rfl rfl
  · intro h1 h2 h3
    have e1 : runRule (leverageRule cfg.leverageCap) ctx =
        passVerdict "leverage_cap" cfg.leverageCap ctx.leverage := by
      unfold runRule leverageRule
      simp [if_pos h1]
    have e2 : runRule (distToLiqRule cfg.distToLiqMin) ctx =
        passVerdict "dist_to_liq_min" cfg.distToLiqMin ctx.distToLiqPct := by
      unfold runRule distToLiqRule
      simp [if_pos h2]
    have e3 : runRule (dailyLossRule cfg.dailyMaxLoss) ctx =
        passVerdict "daily_max_loss" cfg.dailyMaxLoss ctx.dailyLossPct := by
      unfold runRule dailyLossRule
      simp [if_pos h3]
    have hvs : evaluateRules (defaultRules cfg) ctx =
        [passVerdict "leverage_cap" cfg.leverageCap ctx.leverage,
         passVerdict "dist_to_liq_min" cfg.distToLiqMin ctx.distToLiqPct,
         passVerdict "daily_max_loss" cfg.dailyMaxLoss ctx.dailyLossPct,
         failVerdict "consecutive_loss_cooldown" .BLOCK
           "consecutive loss cooldown active"
           (cfg.consecutiveLossCooldown : ℚ) (ctx.consecutiveLosses : ℚ),
         runRule (slippageRule cfg.maxSlippageBps) ctx] := by
      show [runRule (leverageRule cfg.leverageCap) ctx,
            runRule (distToLiqRule cfg.distToLiqMin) ctx,
            runRule (dailyLossRule cfg.dailyMaxLoss) ctx,
            runRule (consecutiveLossRule cfg.consecutiveLossCooldown) ctx,
            runRule (slippageRule cfg.maxSlippageBps) ctx] = _
      rw [e1, e2, e3, hcool]
    have hfil : (evaluateRules (defaultRules cfg) ctx).filter
        (fun u => !u.pass) =
        failVerdict "consecutive_loss_cooldown" .BLOCK
            "consecutive loss cooldown active"
            (cfg.consecutiveLossCooldown : ℚ) (ctx.consecutiveLosses : ℚ) ::
          [runRule (slippageRule cfg.maxSlippageBps) ctx].filter
            (fun u => !u.pass) := by
      rw [hvs]
      simp [List.filter_cons, passVerdict, failVerdict]
    have hfil2 : ((evaluateRules (defaultRules cfg) ctx) ++
        explainFaults cfg ctx).filter (fun u => !u.pass) =
        failVerdict "consecutive_loss_cooldown" .BLOCK
            "consecutive loss cooldown active"
            (cfg.consecutiveLossCooldown : ℚ) (ctx.consecutiveLosses : ℚ) ::
          ([runRule (slippageRule cfg.maxSlippageBps) ctx].filter
              (fun u => !u.pass) ++
            (explainFaults cfg ctx).filter (fun u => !u.pass)) := by
      rw [List.filter_append, hfil]
      rfl
    have hmr := mostRestrictive_of_filter hfil2 rfl
    have happ : decisionApproved (evaluateRules (defaultRules cfg) ctx ++
        explainFaults cfg ctx) = false :=
      blocked_not_approved (List.mem_append.mpr (Or.inl hmem)) rfl rfl
    rw [runPipeline_driving, happ]
    simp [hmr]

/-- C5 witness: consecutive-loss count 3 with cooldown 3 and every other rule
passing — the decision is rejected and driven by the cooldown verdict. -/
theorem cooldown_breach_blocks_witness :
    (runPipeline cfgW (defaultRules cfgW) ctxCool 0).1.approved = false ∧
    failVerdict "consecutive_loss_cooldown" .BLOCK
        "consecutive loss cooldown active"
        (cfgW.consecutiveLossCooldown : ℚ) (ctxCool.consecutiveLosses : ℚ) ∈
      (reduceVerdicts (evaluateRules (defaultRules cfgW) ctxCool)).verdicts ∧
    (runPipeline cfgW (defaultRules cfgW) ctxCool 0).1.drivingVerdict =
      some (failVerdict "consecutive_loss_cooldown" .BLOCK
        "consecutive loss cooldown active"
        (cfgW.consecutiveLossCooldown : ℚ) (ctxCool.consecutiveLosses : ℚ)) :=
  ⟨(cooldown_breach_blocks cfgW ctxCool 0 (by decide)).1,
   (cooldown_breach_blocks cfgW ctxCool 0 (by decide)).2.1,
   (cooldown_breach_blocks cfgW ctxCool 0 (by decide)).2.2
     (by decide) (by decide) (by decide)⟩

/-- C6 counterexample: with the default thresholds and a single template that
always applies and always raises, a context breaching only the slippage rule
satisfies the claim's premises — every other rule passes and the failing
WARNING slippage verdict is recorded in the RiskChecked event — yet the
decision has approved = false: the Explanation Generator's EvaluationFault is
converted to a fail-closed BLOCK verdict, so a slippage breach with every
other rule passing does not always leave the trade approved. -/
theorem slippage_fault_blocks_counterexample :
    ctxSlip.leverage ≤ cfgRaise.leverageCap ∧
    cfgRaise.distToLiqMin ≤ ctxSlip.distToLiqPct ∧
    ctxSlip.dailyLossPct ≤ cfgRaise.dailyMaxLoss ∧
    ctxSlip.consecutiveLosses < cfgRaise.consecutiveLossCooldown ∧
    ¬ ctxSlip.proposedSlippageBps ≤ cfgRaise.maxSlippageBps ∧
    failVerdict "max_slippage_bps" .WARNING "slippage above limit"
        cfgRaise.maxSlippageBps ctxSlip.proposedSlippageBps ∈
      (reduceVerdicts (evaluateRules (defaultRules cfgRaise) ctxSlip)).verdicts ∧
    (runPipeline cfgRaise (defaultRules cfgRaise) ctxSlip 0).1.approved =
      false := by
  refine ⟨by decide, by decide, by decide, by decide, by decide, by decide,
    by decide⟩

/-- C6 (amended): when every other rule passes, the proposed slippage exceeds
the configured maximum, and the explanation generation does not fault, the
slippage rule's failing WARNING verdict is recorded among the RiskChecked
event's verdicts, yet the decision is still approved — a slippage breach
alone never blocks. -/
theorem slippage_warning_does_not_block (cfg : AuditConfig)
    (ctx : DecisionContext) (now : Nat)
    (h1 : ctx.leverage ≤ cfg.leverageCap)
    (h2 : cfg.distToLiqMin ≤ ctx.distToLiqPct)
    (h3 : ctx.dailyLossPct ≤ cfg.dailyMaxLoss)
    (h4 : ctx.consecutiveLosses < cfg.consecutiveLossCooldown)
    (h5 : ¬ ctx.proposedSlippageBps ≤ cfg.maxSlippageBps)
    (hok : ∃ ex, Generate cfg.qualityThreshold cfg.templates ctx =
      Except.ok ex) :
    failVerdict "max_slippage_bps" .WARNING "slippage above limit"
        cfg.maxSlippageBps ctx.proposedSlippageBps ∈
      (reduceVerdicts (evaluateRules (defaultRules cfg) ctx)).verdicts ∧
    (∃ e ∈ (runPipeline cfg (defaultRules cfg) ctx now).2,
       e.eventType = EventType.riskChecked ∧
       e.payload = AuditPayload.risk
         (reduceVerdicts (evaluateRules (defaultRules cfg) ctx))) ∧
    (runPipeline cfg (defaultRules cfg) ctx now).1.approved = true := by
  have e1 : runRule (leverageRule cfg.leverageCap) ctx =
      passVerdict "leverage_cap" cfg.leverageCap ctx.leverage := by
    unfold runRule leverageRule
    simp [if_pos h1]
  have e2 : runRule (distToLiqRule cfg.distToLiqMin) ctx =
      passVerdict "dist_to_liq_min" cfg.distToLiqMin ctx.distToLiqPct := by
    unfold runRule distToLiqRule
    simp [if_pos h2]
  have e3 : runRule (dailyLossRule cfg.dailyMaxLoss) ctx =
      passVerdict "daily_max_loss" cfg.dailyMaxLoss ctx.dailyLossPct := by
    unfold runRule dailyLossRule
    simp [if_pos h3]
  have e4 : runRule (consecutiveLossRule cfg.consecutiveLossCooldown) ctx =
      passVerdict "consecutive_loss_cooldown" (cfg.consecutiveLossCooldown : ℚ)
        (ctx.consecutiveLosses : ℚ) := by
    unfold runRule consecutiveLossRule
    simp [if_pos h4]
  have e5 : runRule (slippageRule cfg.maxSlippageBps) ctx =
      failVerdict "max_slippage_bps" .WARNING "slippage above limit"
        cfg.maxSlippageBps ctx.proposedSlippageBps := by
    unfold runRule slippageRule
    simp [if_neg h5]
  have hvs : evaluateRules (defaultRules cfg) ctx =
      [passVerdict "leverage_cap" cfg.leverageCap ctx.leverage,
       passVerdict "dist_to_liq_min" cfg.distToLiqMin ctx.distToLiqPct,
       passVerdict "daily_max_loss" cfg.dailyMaxLoss ctx.dailyLossPct,
       passVerdict "consecutive_loss_cooldown"
         (cfg.consecutiveLossCooldown : ℚ) (ctx.consecutiveLosses : ℚ),
       failVerdict "max_slippage_bps" .WARNING "slippage above limit"
         cfg.maxSlippageBps ctx.proposedSlippageBps] := by
    show [runRule (leverageRule cfg.leverageCap) ctx,
          runRule (distToLiqRule cfg.distToLiqMin) ctx,
          runRule (dailyLossRule cfg.dailyMaxLoss) ctx,
          runRule (consecutiveLossRule cfg.consecutiveLossCooldown) ctx,
          runRule (slippageRule cfg.maxSlippageBps) ctx] = _
    rw [e1, e2, e3, e4, e5]
  refine ⟨?_, ?_, ?_⟩
  · show _ ∈ evaluateRules (defaultRules cfg) ctx
    rw [hvs]
    simp
  · refine ⟨mkEvent 1 ctx now .riskChecked
      (.risk (reduceVerdicts (evaluateRules (defaultRules cfg) ctx))),
      ?_, rfl, rfl⟩
    rw [runPipeline_events]
    simp
  · have hnf : explainFaults cfg ctx = [] := by
      obtain ⟨ex, hex⟩ := hok
      unfold explainFaults
      rw [hex]
    have hfil : ((evaluateRules (defaultRules cfg) ctx) ++
        explainFaults cfg ctx).filter (fun u => !u.pass) =
        [failVerdict "max_slippage_bps" .WARNING "slippage above limit"
          cfg.maxSlippageBps ctx.proposedSlippageBps] := by
      rw [hnf, List.append_nil, hvs]
      simp [List.filter_cons, passVerdict, failVerdict]
    have hmr : mostRestrictive (evaluateRules (defaultRules cfg) ctx ++
        explainFaults cfg ctx) =
        some (failVerdict "max_slippage_bps" .WARNING "slippage above limit"
          cfg.maxSlippageBps ctx.proposedSlippageBps) := by
      unfold mostRestrictive
      rw [hfil]
      rfl
    rw [runPipeline_approved]
    unfold decisionApproved
    rw [hmr]
    rfl

/-- C6 witness: slippage 9 bps against limit 5 bps with every other rule
passing and a non-faulting (empty) template list — the WARNING verdict is
recorded and the decision approved. -/
theorem slippage_warning_does_not_block_witness :
    failVerdict "max_slippage_bps" .WARNING "slippage above limit"
        cfgW.maxSlippageBps ctxSlip.proposedSlippageBps ∈
      (reduceVerdicts (evaluateRules (defaultRules cfgW) ctxSlip)).verdicts ∧
    (∃ e ∈ (runPipeline cfgW (defaultRules cfgW) ctxSlip 0).2,
       e.eventType = EventType.riskChecked ∧
       e.payload = AuditPayload.risk
         (reduceVerdicts (evaluateRules (defaultRules cfgW) ctxSlip))) ∧
    (runPipeline cfgW (defaultRules cfgW) ctxSlip 0).1.approved = true :=
  slippage_warning_does_not_block cfgW ctxSlip 0
    (by decide) (by decide) (by decide) (by decide) (by decide)
    ⟨fallbackExplain cfgW.qualityThreshold, rfl⟩

/-- C7: when no configured template's applicability predicate matches the
context, Generate returns the generic fallback explanation ("signal
generated; no narrative pattern matched") with quality score exactly 0, the
ExplainCreated event carrying it is emitted by the pipeline, and after a
flush it is retrievable through GetDecisionTrail for the decision's
correlation id. -/
theorem fallback_explanation_persisted (cfg : AuditConfig)
    (rules : List RiskRule) (ctx : DecisionContext) (now : Nat)
    (s : AuditLogStore) (h : ∀ t ∈ cfg.templates, t.applies ctx = false) :
    Generate cfg.qualityThreshold cfg.templates ctx =
      Except.ok (fallbackExplain cfg.qualityThreshold) ∧
    (fallbackExplain cfg.qualityThreshold).text =
      "signal generated; no narrative pattern matched" ∧
    (fallbackExplain cfg.qualityThreshold).qualityScore = 0 ∧
    mkEvent 2 ctx now .explainCreated
        (.explain (fallbackExplain cfg.qualityThreshold)) ∈
      (runPipeline cfg rules ctx now).2 ∧
    mkEvent 2 ctx now .explainCreated
        (.explain (fallbackExplain cfg.qualityThreshold)) ∈
      GetDecisionTrail (Flush (appendEvents s (runPipeline cfg rules ctx now).2))
        ctx.correlationId := by
  have hf : cfg.templates.find? (fun t => t.applies ctx) = none := by
    rw [List.find?_eq_none]
    intro t ht
    simp [h t ht]
  have hg : Generate cfg.qualityThreshold cfg.templates ctx =
      Except.ok (fallbackExplain cfg.qualityThreshold) := by
    unfold Generate
    rw [hf]
  have hex : explainOrFallback cfg ctx =
      fallbackExplain cfg.qualityThreshold := by
    unfold explainOrFallback
    rw [hg]
  have hmem : mkEvent 2 ctx now .explainCreated
      (.explain (fallbackExplain cfg.qualityThreshold)) ∈
      (runPipeline cfg rules ctx now).2 := by
    rw [runPipeline_events, ← hex]
    simp
  refine ⟨hg, rfl, rfl, hmem, ?_⟩
  show _ ∈ List.filter _ _
  apply List.mem_filter.mpr
  refine ⟨?_, by simp [mkEvent]⟩
  show _ ∈ s.idxStore ++ (s.queue ++ (runPipeline cfg rules ctx now).2)
  exact List.mem_append.mpr (Or.inr (List.mem_append.mpr (Or.inr hmem)))

/-- C7 witness: with one enabled template that never matches, the fallback
explanation event is emitted and retrievable from the flushed store. -/
theorem fallback_explanation_persisted_witness :
    Generate cfgTpl.qualityThreshold cfgTpl.templates ctxBase =
      Except.ok (fallbackExplain cfgTpl.qualityThreshold) ∧
    (fallbackExplain cfgTpl.qualityThreshold).text =
      "signal generated; no narrative pattern matched" ∧
    (fallbackExplain cfgTpl.qualityThreshold).qualityScore = 0 ∧
    mkEvent 2 ctxBase 0 .explainCreated
        (.explain (fallbackExplain cfgTpl.qualityThreshold)) ∈
      (runPipeline cfgTpl (defaultRules cfgTpl) ctxBase 0).2 ∧
    mkEvent 2 ctxBase 0 .explainCreated
        (.explain (fallbackExplain cfgTpl.qualityThreshold)) ∈
      GetDecisionTrail
        (Flush (appendEvents emptyStore
          (runPipeline cfgTpl (defaultRules cfgTpl) ctxBase 0).2))
        ctxBase.correlationId :=
  fallback_explanation_persisted cfgTpl (defaultRules cfgTpl) ctxBase 0
    emptyStore
    (by
      intro t ht
      have he := List.mem_singleton.mp ht
      subst he
      rfl)

/-- C8: within one correlation id the events are persisted in emission order
— the trail's event types read SignalGenerated, RiskChecked, ExplainCreated,
Decision, then the order event, and any interleaving of two decisions'
appends restricted to one correlation id is exactly that decision's emitted
sequence — while across correlation ids both relative orders are realizable,
so no cross-id ordering holds. -/
theorem per_correlation_order_preserved (cfg1 cfg2 : AuditConfig)
    (rules1 rules2 : List RiskRule) (ctx1 ctx2 : DecisionContext)
    (now1 now2 later1 later2 : Nat) (st1 st2 : OrderStatus)
    (oid1 oid2 r1 r2 : String)
    (hne : ctx1.correlationId ≠ ctx2.correlationId) :
    ((decisionTrailEmitted cfg1 rules1 ctx1 now1 later1 st1 oid1 r1).map
        (fun e => e.eventType) =
      [EventType.signalGenerated, EventType.riskChecked,
       EventType.explainCreated, EventType.decision, orderEventType st1]) ∧
    (∀ l, Interleave
        (decisionTrailEmitted cfg1 rules1 ctx1 now1 later1 st1 oid1 r1)
        (decisionTrailEmitted cfg2 rules2 ctx2 now2 later2 st2 oid2 r2) l →
      l.filter (fun e => e.correlationId == ctx1.correlationId) =
        decisionTrailEmitted cfg1 rules1 ctx1 now1 later1 st1 oid1 r1) ∧
    (∃ l l', Interleave
        (decisionTrailEmitted cfg1 rules1 ctx1 now1 later1 st1 oid1 r1)
        (decisionTrailEmitted cfg2 rules2 ctx2 now2 later2 st2 oid2 r2) l ∧
      Interleave
        (decisionTrailEmitted cfg1 rules1 ctx1 now1 later1 st1 oid1 r1)
        (decisionTrailEmitted cfg2 rules2 ctx2 now2 later2 st2 oid2 r2) l' ∧
      l = decisionTrailEmitted cfg1 rules1 ctx1 now1 later1 st1 oid1 r1 ++
          decisionTrailEmitted cfg2 rules2 ctx2 now2 later2 st2 oid2 r2 ∧
      l' = decisionTrailEmitted cfg2 rules2 ctx2 now2 later2 st2 oid2 r2 ++
           decisionTrailEmitted cfg1 rules1 ctx1 now1 later1 st1 oid1 r1) := by
  refine ⟨rfl, ?_, ?_⟩
  · intro l hl
    apply interleave_filter hl
    · intro e he
      have hc := trail_correlation cfg1 rules1 ctx1 now1 later1 st1 oid1 r1 e he
      simp [hc]
    · intro e he
      have hc := trail_correlation cfg2 rules2 ctx2 now2 later2 st2 oid2 r2 e he
      simp [hc]
      omega
  · exact ⟨_, _, interleave_append_left _ _, interleave_append_right _ _,
      rfl, rfl⟩

/-- C8 witness: two concrete decisions with correlation ids 7 and 8 — the
first trail's event types are in pipeline order and the concatenated
interleaving filtered by correlation id 7 returns exactly the first trail. -/
theorem per_correlation_order_preserved_witness :
    ((decisionTrailEmitted cfgW (defaultRules cfgW) ctxBase 0 1 .FILLED
        "o1" "").map (fun e => e.eventType) =
      [EventType.signalGenerated, EventType.riskChecked,
       EventType.explainCreated, EventType.decision,
       EventType.orderFilled]) ∧
    ((decisionTrailEmitted cfgW (defaultRules cfgW) ctxBase 0 1 .FILLED
        "o1" "" ++
      decisionTrailEmitted cfgW (defaultRules cfgW) ctxSlip 0 1 .REJECTED
        "o2" "liquidity").filter
        (fun e => e.correlationId == ctxBase.correlationId) =
      decisionTrailEmitted cfgW (defaultRules cfgW) ctxBase 0 1 .FILLED
        "o1" "") :=
  ⟨(per_correlation_order_preserved cfgW cfgW (defaultRules cfgW)
      (defaultRules cfgW) ctxBase ctxSlip 0 0 1 1 .FILLED .REJECTED
      "o1" "o2" "" "liquidity" (by decide)).1,
   (per_correlation_order_preserved cfgW cfgW (defaultRules cfgW)
      (defaultRules cfgW) ctxBase ctxSlip 0 0 1 1 .FILLED .REJECTED
      "o1" "o2" "" "liquidity" (by decide)).2.1 _
     (interleave_append_left _ _)⟩

/-- C9: for any sequence of append/flush operations against an initially
empty store followed by a final flush, the queue is drained and, for every
calendar day, the sequential log's event count equals the indexed store's
event count. -/
theorem daily_reconciliation (ops : List LogOp) (d : Nat) :
    (applyOps emptyStore (ops ++ [LogOp.flush])).queue = [] ∧
    dayCount (applyOps emptyStore (ops ++ [LogOp.flush])).seqLog d =
      dayCount (applyOps emptyStore (ops ++ [LogOp.flush])).idxStore d := by
  constructor
  · rw [applyOps_append]
    rfl
  · have h := seqLog_eq_idxStore (ops ++ [LogOp.flush]) emptyStore rfl
    rw [h]

/-- C10: with `AUDIT_ENABLED` false, processing a trading signal leaves the
audit log store untouched, emits no audit events, and returns exactly the
pre-existing risk system's approval. -/
theorem audit_disabled_frame (cfg : AuditConfig) (ctx : DecisionContext)
    (now : Nat) (pre : Bool) (s : AuditLogStore)
    (h : cfg.auditEnabled = false) :
    processTradingSignal cfg ctx now pre s = (pre, s, []) := by
  simp [processTradingSignal, h]

/-- C10 witness: the disabled configuration on the benign context and the
empty store — nothing changes. -/
theorem audit_disabled_frame_witness :
    processTradingSignal cfgOff ctxBase 0 true emptyStore =
      (true, emptyStore, []) :=
  audit_disabled_frame cfgOff ctxBase 0 true emptyStore rfl

end SyrmaxAudit
